import Mathlib

/-!
Shallow embedding of the quota and trial accounting engine of QuickBot_V3:
`src/utils/quotas.py` together with the data model in `src/models.py` and
the constants in `src/config.py`.

Modelling conventions:
* Instants (`datetime.utcnow()`) are integers counting seconds; a calendar
  date (`date.today()`) is an integer day index.  `timedelta(days=7)` is
  `7 * 86400` seconds, and Python's `timedelta.days` is floor division of
  the total seconds by `86400` (`Int.fdiv`).
* The SQLAlchemy session is modelled as an explicit store `DB` holding the
  `quota_usage` rows (keyed by `(user_id, usage_date)`) and the
  `trial_usage` rows (keyed by `user_id`); every stateful function returns
  its result together with the updated store.
* A freshly created `TrialUsage` object has `last_reset_at = None` inside
  the session (the server default is not refreshed after `flush`), which is
  why the source guards every read with `trial.last_reset_at or now`; the
  model mirrors this with `Option Int` and `Option.getD now`.
-/

namespace QuickBot

/-- The four daily-quota feature kinds (`quick_chat, code_chat, convert, pptx`). -/
inductive QuotaType
  | quick_chat
  | code_chat
  | convert
  | pptx
deriving DecidableEq, Repr

/-- The three trial-gated feature kinds (`image_gen, image_edit, pptx`). -/
inductive TrialFeature
  | image_gen
  | image_edit
  | pptx
deriving DecidableEq, Repr

/-- `config.TRIAL_PERIOD_DAYS`. -/
def TRIAL_PERIOD_DAYS : Int := 7

/-- `config.TRIAL_USES_PER_PERIOD`. -/
def TRIAL_USES_PER_PERIOD : Int := 3

/-- Seconds in a day, the unit conversion behind `timedelta(days=n)`. -/
def secondsPerDay : Int := 86400

/-- `models.Plan`: the per-plan daily limits (the only fields the ledgers read). -/
structure Plan where
  daily_quick_chat : Int
  daily_code_chat : Int
  daily_convert : Int
  daily_pptx : Int
deriving DecidableEq, Repr

/-- `models.User`: the fields the quota engine reads.  `premium_until` is the
nullable premium-expiry instant; the four `daily_*` fields are the nullable
personal overrides of the plan limits. -/
structure User where
  id : Nat
  plan : Plan
  premium_until : Option Int
  daily_quick_chat : Option Int
  daily_code_chat : Option Int
  daily_convert : Option Int
  daily_pptx : Option Int
  is_admin : Bool
deriving DecidableEq, Repr

/-- `User.is_premium`: `bool(self.premium_until and datetime.utcnow() < self.premium_until)`. -/
def User.is_premium (u : User) (now : Int) : Bool :=
  match u.premium_until with
  | none => false
  | some t => decide (now < t)

/-- `getattr(user, f"daily_{quota_type}", None)` — the personal override column. -/
def userOverride (u : User) : QuotaType → Option Int
  | .quick_chat => u.daily_quick_chat
  | .code_chat => u.daily_code_chat
  | .convert => u.daily_convert
  | .pptx => u.daily_pptx

/-- `getattr(plan, f"daily_{quota_type}", 0)` — the plan-default column. -/
def planLimit (p : Plan) : QuotaType → Int
  | .quick_chat => p.daily_quick_chat
  | .code_chat => p.daily_code_chat
  | .convert => p.daily_convert
  | .pptx => p.daily_pptx

/-- `User.get_daily_limit`: personal override if non-null, else the plan default. -/
def User.get_daily_limit (u : User) (quota_type : QuotaType) : Int :=
  match userOverride u quota_type with
  | some v => v
  | none => planLimit u.plan quota_type

/-- `models.QuotaUsage`: the per-(user, date) daily counters. -/
structure QuotaUsage where
  quick_chat : Int
  code_chat : Int
  convert : Int
  pptx : Int
deriving DecidableEq, Repr

/-- `getattr(quota, quota_type, 0)`. -/
def quotaGet (q : QuotaUsage) : QuotaType → Int
  | .quick_chat => q.quick_chat
  | .code_chat => q.code_chat
  | .convert => q.convert
  | .pptx => q.pptx

/-- `setattr(quota, quota_type, v)`. -/
def quotaSet (q : QuotaUsage) : QuotaType → Int → QuotaUsage
  | .quick_chat, v => { q with quick_chat := v }
  | .code_chat, v => { q with code_chat := v }
  | .convert, v => { q with convert := v }
  | .pptx, v => { q with pptx := v }

/-- `models.TrialUsage`: one rolling-trial record per user.  `last_reset_at` is
`none` for a freshly inserted row whose server default has not been refreshed
into the session (the source always guards with `or now`). -/
structure TrialUsage where
  last_reset_at : Option Int
  image_gen_used : Int
  image_edit_used : Int
  pptx_used : Int
deriving DecidableEq, Repr

/-- `getattr(trial, f"{feature}_used", 0)`. -/
def trialGet (t : TrialUsage) : TrialFeature → Int
  | .image_gen => t.image_gen_used
  | .image_edit => t.image_edit_used
  | .pptx => t.pptx_used

/-- `setattr(trial, f"{feature}_used", v)`. -/
def trialSet (t : TrialUsage) : TrialFeature → Int → TrialUsage
  | .image_gen, v => { t with image_gen_used := v }
  | .image_edit, v => { t with image_edit_used := v }
  | .pptx, v => { t with pptx_used := v }

/-- The persistent store: `quota_usage` rows keyed by `(user_id, usage_date)`
and `trial_usage` rows keyed by `user_id`. -/
structure DB where
  quotas : List ((Nat × Int) × QuotaUsage)
  trials : List (Nat × TrialUsage)
deriving DecidableEq, Repr

/-- First-match lookup in the quota table (the unique constraint
`uq_quota_user_day` keeps keys distinct in real stores). -/
def qlookup : List ((Nat × Int) × QuotaUsage) → Nat × Int → Option QuotaUsage
  | [], _ => none
  | (k, v) :: rest, key => if k = key then some v else qlookup rest key

/-- Replace the row with the given key (insert it if absent). -/
def qset : List ((Nat × Int) × QuotaUsage) → Nat × Int → QuotaUsage → List ((Nat × Int) × QuotaUsage)
  | [], key, v => [(key, v)]
  | (k, w) :: rest, key, v =>
    if k = key then (k, v) :: rest else (k, w) :: qset rest key v

/-- First-match lookup in the trial table (`user_id` is unique). -/
def tlookup : List (Nat × TrialUsage) → Nat → Option TrialUsage
  | [], _ => none
  | (k, v) :: rest, key => if k = key then some v else tlookup rest key

/-- Replace the trial row with the given key (insert it if absent). -/
def tset : List (Nat × TrialUsage) → Nat → TrialUsage → List (Nat × TrialUsage)
  | [], key, v => [(key, v)]
  | (k, w) :: rest, key, v =>
    if k = key then (k, v) :: rest else (k, w) :: tset rest key v

/-- `QuotaUsage.get_or_create` (`models.py`): return the row for
`(user_id, usage_date)`, inserting a fresh all-zero row if none exists. -/
def QuotaUsage.get_or_create (db : DB) (user_id : Nat) (usage_date : Int) :
    QuotaUsage × DB :=
  match qlookup db.quotas (user_id, usage_date) with
  | some q => (q, db)
  | none =>
    let q : QuotaUsage := ⟨0, 0, 0, 0⟩
    (q, { db with quotas := ((user_id, usage_date), q) :: db.quotas })

/-- `quotas.get_or_create_trial`: return the user's trial row, inserting a
fresh one (counters zero, `last_reset_at` unrefreshed) if none exists. -/
def get_or_create_trial (db : DB) (user : User) : TrialUsage × DB :=
  match tlookup db.trials user.id with
  | some t => (t, db)
  | none =>
    let t : TrialUsage := ⟨none, 0, 0, 0⟩
    (t, { db with trials := (user.id, t) :: db.trials })

/-- `quotas.has_quota` (success path, no persistence failure): premium/admin
bypass, then `used < limit` on today's get-or-create row. -/
def has_quota (db : DB) (user : User) (quota_type : QuotaType)
    (today : Int) (now : Int) : Bool × DB :=
  if user.is_premium now || user.is_admin then (true, db)
  else
    let r := QuotaUsage.get_or_create db user.id today
    let used := quotaGet r.1 quota_type
    let limit := user.get_daily_limit quota_type
    (decide (used < limit), r.2)

/-- `quotas.has_quota` with the fallibility of the `try` block made explicit:
the read of today's row is an `Except`; the `except` branch logs and returns
`True` ("Fail open - allow usage on error"). -/
def has_quota_exc (user : User) (quota_type : QuotaType) (now : Int)
    (read : Except String QuotaUsage) : Bool :=
  if user.is_premium now || user.is_admin then true
  else
    match read with
    | .ok quota => decide (quotaGet quota quota_type < user.get_daily_limit quota_type)
    | .error _ => true

/-- `quotas.increment_quota`: get-or-create today's row, add `amount` to the
named counter, no limit re-check. -/
def increment_quota (db : DB) (user : User) (quota_type : QuotaType)
    (amount : Int) (today : Int) : DB :=
  let r := QuotaUsage.get_or_create db user.id today
  let current := quotaGet r.1 quota_type
  { r.2 with quotas := qset r.2.quotas (user.id, today) (quotaSet r.1 quota_type (current + amount)) }

/-- `quotas.get_quota_status`: each counter of today's get-or-create row
paired with the user's resolved daily limit. -/
def get_quota_status (db : DB) (user : User) (today : Int) :
    ((Int × Int) × (Int × Int) × (Int × Int) × (Int × Int)) × DB :=
  let r := QuotaUsage.get_or_create db user.id today
  (((r.1.quick_chat, user.get_daily_limit .quick_chat),
    (r.1.code_chat, user.get_daily_limit .code_chat),
    (r.1.convert, user.get_daily_limit .convert),
    (r.1.pptx, user.get_daily_limit .pptx)), r.2)

/-- `quotas.maybe_reset_trial`: if `now - (last_reset_at or now)` is at least
`TRIAL_PERIOD_DAYS` days, set `last_reset_at = now`, zero all three counters
and return `true`; otherwise return `false` with nothing changed. -/
def maybe_reset_trial (db : DB) (user : User) (now : Int) : Bool × DB :=
  let r := get_or_create_trial db user
  let time_since_reset := now - (r.1.last_reset_at.getD now)
  if time_since_reset ≥ TRIAL_PERIOD_DAYS * secondsPerDay then
    (true, { r.2 with trials := tset r.2.trials user.id ⟨some now, 0, 0, 0⟩ })
  else
    (false, r.2)

/-- `quotas.trial_remaining`: `max(0, TRIAL_USES_PER_PERIOD - used)`. -/
def trial_remaining (db : DB) (user : User) (feature : TrialFeature) : Int × DB :=
  let r := get_or_create_trial db user
  let used := trialGet r.1 feature
  (max 0 (TRIAL_USES_PER_PERIOD - used), r.2)

/-- `quotas.consume_trial`: refuse without mutation when the counter is at or
above `TRIAL_USES_PER_PERIOD`, else increment it by one and succeed. -/
def consume_trial (db : DB) (user : User) (feature : TrialFeature) : Bool × DB :=
  let r := get_or_create_trial db user
  let used := trialGet r.1 feature
  if used ≥ TRIAL_USES_PER_PERIOD then (false, r.2)
  else
    (true, { r.2 with trials := tset r.2.trials user.id (trialSet r.1 feature (used + 1)) })

/-- The record returned by `quotas.get_trial_status`. -/
structure TrialStatus where
  image_gen : Int × Int × Int
  image_edit : Int × Int × Int
  pptx : Int × Int × Int
  last_reset : Option Int
  days_until_reset : Int
  reset_period_days : Int
deriving DecidableEq, Repr

/-- `quotas.get_trial_status`: per-feature `(used, remaining, total)` plus
`last_reset` and `days_until_reset = max(0, (timedelta(days=7) - (now -
last_reset_at)).days)`; Python's `timedelta.days` floors. -/
def get_trial_status (db : DB) (user : User) (now : Int) : TrialStatus × DB :=
  let r := get_or_create_trial db user
  let time_since_reset := now - (r.1.last_reset_at.getD now)
  let time_until_reset := TRIAL_PERIOD_DAYS * secondsPerDay - time_since_reset
  let days_until_reset := max 0 (Int.fdiv time_until_reset secondsPerDay)
  ({ image_gen := (r.1.image_gen_used, TRIAL_USES_PER_PERIOD - r.1.image_gen_used, TRIAL_USES_PER_PERIOD),
     image_edit := (r.1.image_edit_used, TRIAL_USES_PER_PERIOD - r.1.image_edit_used, TRIAL_USES_PER_PERIOD),
     pptx := (r.1.pptx_used, TRIAL_USES_PER_PERIOD - r.1.pptx_used, TRIAL_USES_PER_PERIOD),
     last_reset := r.1.last_reset_at,
     days_until_reset := days_until_reset,
     reset_period_days := TRIAL_PERIOD_DAYS }, r.2)

/-- The `feature` / `is_premium_feature` pair passed to `can_use_feature`:
`is_premium_feature = true` routes the name to the trial ledger, otherwise to
the daily-quota ledger. -/
inductive FeatureClass
  | premiumFeature (f : TrialFeature)
  | freeFeature (q : QuotaType)
deriving DecidableEq, Repr

/-- `quotas.can_use_feature`: admin bypass, premium bypass, then the trial
check (premium features) or the quota check (free features). -/
def can_use_feature (db : DB) (user : User) (fc : FeatureClass)
    (today : Int) (now : Int) : (Bool × String) × DB :=
  if user.is_admin then ((true, ""), db)
  else if user.is_premium now then ((true, ""), db)
  else
    match fc with
    | .premiumFeature f =>
      let r := trial_remaining db user f
      if r.1 ≤ 0 then ((false, "trial_exhausted"), r.2)
      else ((true, "trial"), r.2)
    | .freeFeature q =>
      let r := has_quota db user q today now
      if r.1 then ((true, "quota"), r.2) else ((false, "quota_exhausted"), r.2)

/-! Derived definitions used to state the claims. -/

/-- `n` successive `increment_quota(user, f, amount=1)` calls on date `D`. -/
def incIter (db : DB) (u : User) (f : QuotaType) (D : Int) : Nat → DB
  | 0 => db
  | n + 1 => increment_quota (incIter db u f D n) u f 1 D

/-- Run a sequence of `consume_trial` calls for one user, keeping only the store. -/
def consumeSeq (db : DB) (u : User) : List TrialFeature → DB
  | [] => db
  | f :: fs => consumeSeq (consume_trial db u f).2 u fs

/-- Every counter of a trial record is at most `TRIAL_USES_PER_PERIOD`. -/
def trialRecBounded (t : TrialUsage) : Prop :=
  ∀ g, trialGet t g ≤ TRIAL_USES_PER_PERIOD

/-- The stored trial record of a user (if any) has all counters at most
`TRIAL_USES_PER_PERIOD`. -/
def trialBounded (db : DB) (uid : Nat) : Prop :=
  ∀ t, tlookup db.trials uid = some t → trialRecBounded t

/-- Ceiling division on integers (for `b > 0`), used to state what the spec
asks of `days_until_reset`. -/
def cdiv (a b : Int) : Int := -(Int.fdiv (-a) b)

/-- Project one feature's `(used, limit)` pair out of `get_quota_status`'s result. -/
def statusEntry (s : (Int × Int) × (Int × Int) × (Int × Int) × (Int × Int)) :
    QuotaType → Int × Int
  | .quick_chat => s.1
  | .code_chat => s.2.1
  | .convert => s.2.2.1
  | .pptx => s.2.2.2

/-! Concrete instances for counterexamples and witnesses. -/

/-- The `free` plan limits seeded by `db.init_db` / `config.py`. -/
def planFree : Plan := ⟨20, 10, 5, 2⟩

/-- An empty store. -/
def dbEmpty : DB := ⟨[], []⟩

/-- A plain non-admin, non-premium user on the free plan, no overrides. -/
def userBasic : User := ⟨4, planFree, none, none, none, none, none, false⟩

/-- A non-admin, non-premium user whose personal `daily_convert` override is `0`. -/
def userZeroLimit : User := ⟨1, planFree, none, none, none, some 0, none, false⟩

/-- A non-admin, non-premium user whose personal `daily_convert` override is `-1`
while the plan default is `5`. -/
def userNegOverride : User := ⟨2, planFree, none, none, none, some (-1), none, false⟩

/-- An admin user. -/
def userAdmin : User := ⟨5, planFree, none, none, none, none, none, true⟩

/-- A non-admin user (id 3) paired with `dbTrial` below. -/
def userTrial : User := ⟨3, planFree, none, none, none, none, none, false⟩

/-- A trial record whose last reset happened at instant `0`. -/
def trialT0 : TrialUsage := ⟨some 0, 0, 0, 0⟩

/-- A store holding only `userTrial`'s trial record, last reset at instant `0`. -/
def dbTrial : DB := ⟨[], [(3, trialT0)]⟩

/-! Store lemmas. -/

theorem qlookup_qset_self (l : List ((Nat × Int) × QuotaUsage)) (k : Nat × Int)
    (v : QuotaUsage) : qlookup (qset l k v) k = some v := by
  induction l with
  | nil => simp [qset, qlookup]
  | cons p rest ih =>
    by_cases h : p.1 = k
    · simp [qset, qlookup, h]
    · simp [qset, qlookup, h, ih]

theorem qlookup_qset_ne (l : List ((Nat × Int) × QuotaUsage)) (k k' : Nat × Int)
    (v : QuotaUsage) (h : k' ≠ k) : qlookup (qset l k v) k' = qlookup l k' := by
  induction l with
  | nil => simp [qset, qlookup, Ne.symm h]
  | cons p rest ih =>
    by_cases hp : p.1 = k
    · subst hp
      simp [qset, qlookup, Ne.symm h]
    · simp only [qset, if_neg hp]
      by_cases hq : p.1 = k'
      · simp [qlookup, hq]
      · simp [qlookup, hq, ih]

theorem tlookup_tset_self (l : List (Nat × TrialUsage)) (k : Nat) (v : TrialUsage) :
    tlookup (tset l k v) k = some v := by
  induction l with
  | nil => simp [tset, tlookup]
  | cons p rest ih =>
    by_cases h : p.1 = k
    · simp [tset, tlookup, h]
    · simp [tset, tlookup, h, ih]

theorem tlookup_tset_ne (l : List (Nat × TrialUsage)) (k k' : Nat) (v : TrialUsage)
    (h : k' ≠ k) : tlookup (tset l k v) k' = tlookup l k' := by
  induction l with
  | nil => simp [tset, tlookup, Ne.symm h]
  | cons p rest ih =>
    by_cases hp : p.1 = k
    · subst hp
      simp [tset, tlookup, Ne.symm h]
    · simp only [tset, if_neg hp]
      by_cases hq : p.1 = k'
      · simp [tlookup, hq]
      · simp [tlookup, hq, ih]

/-! Get-or-create lemmas (quota side). -/

theorem get_or_create_found (db : DB) (uid : Nat) (d : Int) (q : QuotaUsage)
    (h : qlookup db.quotas (uid, d) = some q) :
    QuotaUsage.get_or_create db uid d = (q, db) := by
  simp [QuotaUsage.get_or_create, h]

theorem get_or_create_stores (db : DB) (uid : Nat) (d : Int) :
    qlookup (QuotaUsage.get_or_create db uid d).2.quotas (uid, d)
      = some (QuotaUsage.get_or_create db uid d).1 := by
  unfold QuotaUsage.get_or_create
  cases h : qlookup db.quotas (uid, d) with
  | some q => simp [h]
  | none => simp [qlookup]

theorem get_or_create_preserves_ne (db : DB) (uid : Nat) (d : Int) (k : Nat × Int)
    (hk : k ≠ (uid, d)) :
    qlookup (QuotaUsage.get_or_create db uid d).2.quotas k = qlookup db.quotas k := by
  unfold QuotaUsage.get_or_create
  cases h : qlookup db.quotas (uid, d) with
  | some q => simp [h]
  | none => simp [h, qlookup, Ne.symm hk]

theorem get_or_create_preserves (db : DB) (uid : Nat) (d : Int) (k : Nat × Int)
    (q : QuotaUsage) (h : qlookup db.quotas k = some q) :
    qlookup (QuotaUsage.get_or_create db uid d).2.quotas k = some q := by
  by_cases hk : k = (uid, d)
  · subst hk
    rw [get_or_create_found db uid d q h]
    exact h
  · rw [get_or_create_preserves_ne db uid d k hk]
    exact h

theorem get_or_create_trials_eq (db : DB) (uid : Nat) (d : Int) :
    (QuotaUsage.get_or_create db uid d).2.trials = db.trials := by
  unfold QuotaUsage.get_or_create
  cases h : qlookup db.quotas (uid, d) <;> simp [h]

theorem get_or_create_idem (db : DB) (uid : Nat) (d : Int) :
    QuotaUsage.get_or_create (QuotaUsage.get_or_create db uid d).2 uid d
      = ((QuotaUsage.get_or_create db uid d).1, (QuotaUsage.get_or_create db uid d).2) :=
  get_or_create_found _ uid d _ (get_or_create_stores db uid d)

/-! Get-or-create lemmas (trial side). -/

theorem trial_found (db : DB) (u : User) (t : TrialUsage)
    (h : tlookup db.trials u.id = some t) : get_or_create_trial db u = (t, db) := by
  simp [get_or_create_trial, h]

theorem trial_stores (db : DB) (u : User) :
    tlookup (get_or_create_trial db u).2.trials u.id = some (get_or_create_trial db u).1 := by
  unfold get_or_create_trial
  cases h : tlookup db.trials u.id with
  | some t => simp [h]
  | none => simp [tlookup]

theorem trial_preserves_ne (db : DB) (u : User) (k : Nat) (hk : k ≠ u.id) :
    tlookup (get_or_create_trial db u).2.trials k = tlookup db.trials k := by
  unfold get_or_create_trial
  cases h : tlookup db.trials u.id with
  | some t => simp [h]
  | none => simp [h, tlookup, Ne.symm hk]

theorem trial_preserves (db : DB) (u : User) (k : Nat) (t : TrialUsage)
    (h : tlookup db.trials k = some t) :
    tlookup (get_or_create_trial db u).2.trials k = some t := by
  by_cases hk : k = u.id
  · subst hk
    rw [trial_found db u t h]
    exact h
  · rw [trial_preserves_ne db u k hk]
    exact h

theorem trial_quotas_eq (db : DB) (u : User) :
    (get_or_create_trial db u).2.quotas = db.quotas := by
  unfold get_or_create_trial
  cases h : tlookup db.trials u.id <;> simp [h]

theorem trial_idem (db : DB) (u : User) :
    get_or_create_trial (get_or_create_trial db u).2 u
      = ((get_or_create_trial db u).1, (get_or_create_trial db u).2) :=
  trial_found _ u _ (trial_stores db u)

/-! Field-accessor lemmas. -/

theorem quotaGet_set_self (q : QuotaUsage) (f : QuotaType) (v : Int) :
    quotaGet (quotaSet q f v) f = v := by
  cases f <;> rfl

theorem quotaGet_zero (f : QuotaType) : quotaGet ⟨0, 0, 0, 0⟩ f = 0 := by
  cases f <;> rfl

theorem trialGet_set_self (t : TrialUsage) (f : TrialFeature) (v : Int) :
    trialGet (trialSet t f v) f = v := by
  cases f <;> rfl

theorem trialGet_set_ne (t : TrialUsage) (f g : TrialFeature) (v : Int) (h : g ≠ f) :
    trialGet (trialSet t f v) g = trialGet t g := by
  cases f <;> cases g <;> first | rfl | exact absurd rfl h

theorem trialSet_last_reset (t : TrialUsage) (f : TrialFeature) (v : Int) :
    (trialSet t f v).last_reset_at = t.last_reset_at := by
  cases f <;> rfl

theorem trialRecBounded_set (t : TrialUsage) (f : TrialFeature) (v : Int)
    (hb : trialRecBounded t) (hv : v ≤ TRIAL_USES_PER_PERIOD) :
    trialRecBounded (trialSet t f v) := by
  intro g
  by_cases hg : g = f
  · subst hg
    rw [trialGet_set_self]
    exact hv
  · rw [trialGet_set_ne t f g v hg]
    exact hb g

/-! Increment lemmas. -/

theorem increment_quota_get (db : DB) (u : User) (f : QuotaType) (D : Int) :
    quotaGet (QuotaUsage.get_or_create (increment_quota db u f 1 D) u.id D).1 f
      = quotaGet (QuotaUsage.get_or_create db u.id D).1 f + 1 := by
  have hl : qlookup (increment_quota db u f 1 D).quotas (u.id, D)
      = some (quotaSet (QuotaUsage.get_or_create db u.id D).1 f
          (quotaGet (QuotaUsage.get_or_create db u.id D).1 f + 1)) := by
    simp only [increment_quota]
    exact qlookup_qset_self _ _ _
  rw [get_or_create_found _ _ _ _ hl]
  exact quotaGet_set_self _ _ _

theorem increment_quota_preserves_ne (db : DB) (u : User) (f : QuotaType)
    (a D : Int) (k : Nat × Int) (hk : k ≠ (u.id, D)) :
    qlookup (increment_quota db u f a D).quotas k = qlookup db.quotas k := by
  simp only [increment_quota]
  rw [qlookup_qset_ne _ _ _ _ hk]
  exact get_or_create_preserves_ne db u.id D k hk

theorem incIter_get (db : DB) (u : User) (f : QuotaType) (D : Int) (n : Nat) :
    quotaGet (QuotaUsage.get_or_create (incIter db u f D n) u.id D).1 f
      = quotaGet (QuotaUsage.get_or_create db u.id D).1 f + n := by
  induction n with
  | zero => simp [incIter]
  | succ n ih =>
    simp only [incIter]
    rw [increment_quota_get, ih]
    push_cast
    ring

theorem incIter_preserves_ne (db : DB) (u : User) (f : QuotaType) (D : Int)
    (n : Nat) (k : Nat × Int) (hk : k ≠ (u.id, D)) :
    qlookup (incIter db u f D n).quotas k = qlookup db.quotas k := by
  induction n with
  | zero => rfl
  | succ n ih =>
    simp only [incIter]
    rw [increment_quota_preserves_ne _ _ _ _ _ _ hk, ih]

/-! Bounded-counter preservation. -/

theorem trial_bounded_get_or_create (db : DB) (u : User) (hb : trialBounded db u.id) :
    trialRecBounded (get_or_create_trial db u).1
      ∧ trialBounded (get_or_create_trial db u).2 u.id := by
  unfold get_or_create_trial
  cases h : tlookup db.trials u.id with
  | some t =>
    exact ⟨hb t h, hb⟩
  | none =>
    constructor
    · intro g
      cases g <;> simp [trialGet, TRIAL_USES_PER_PERIOD]
    · intro t' h'
      simp only [tlookup, if_pos rfl] at h'
      cases h'
      intro g
      cases g <;> simp [trialGet, TRIAL_USES_PER_PERIOD]

theorem consume_preserves_bounded (db : DB) (u : User) (f : TrialFeature)
    (hb : trialBounded db u.id) : trialBounded (consume_trial db u f).2 u.id := by
  have hrec := (trial_bounded_get_or_create db u hb).1
  have hdb := (trial_bounded_get_or_create db u hb).2
  unfold consume_trial
  by_cases h : trialGet (get_or_create_trial db u).1 f ≥ TRIAL_USES_PER_PERIOD
  · simpa [if_pos h] using hdb
  · simp only [if_neg h]
    intro t' h'
    rw [tlookup_tset_self] at h'
    cases h'
    exact trialRecBounded_set _ f _ hrec (by have := hrec f; omega)

theorem consumeSeq_bounded (u : User) (fs : List TrialFeature) :
    ∀ db, trialBounded db u.id → trialBounded (consumeSeq db u fs) u.id := by
  induction fs with
  | nil => intro db hb; exact hb
  | cons f fs ih =>
    intro db hb
    exact ih _ (consume_preserves_bounded db u f hb)

/-! Claims. -/

/-- Claim C1: the stored trial counters never exceed `TRIAL_USES_PER_PERIOD`
under any sequence of `consume_trial` calls; a call finding the counter at or
above the cap returns `false` without mutating the record, and otherwise the
call returns `true` and increments exactly that counter by one. -/
theorem consume_trial_cap_never_exceeded (db : DB) (u : User) (f : TrialFeature)
    (fs : List TrialFeature) (hb : trialBounded db u.id) :
    trialBounded (consumeSeq db u fs) u.id
    ∧ (trialGet (get_or_create_trial db u).1 f ≥ TRIAL_USES_PER_PERIOD →
        consume_trial db u f = (false, (get_or_create_trial db u).2))
    ∧ (trialGet (get_or_create_trial db u).1 f < TRIAL_USES_PER_PERIOD →
        (consume_trial db u f).1 = true
        ∧ tlookup (consume_trial db u f).2.trials u.id
            = some (trialSet (get_or_create_trial db u).1 f
                (trialGet (get_or_create_trial db u).1 f + 1))) := by
  refine ⟨consumeSeq_bounded u fs db hb, ?_, ?_⟩
  · intro h
    simp only [consume_trial]
    rw [if_pos h]
  · intro h
    simp only [consume_trial]
    rw [if_neg (not_le.mpr h)]
    exact ⟨rfl, tlookup_tset_self _ _ _⟩

/-- Witness for C1 at a concrete input: the empty store, a plain user and four
`image_gen` consumes. -/
theorem consume_trial_cap_never_exceeded_witness :
    trialBounded (consumeSeq dbEmpty userBasic
        [TrialFeature.image_gen, TrialFeature.image_gen,
         TrialFeature.image_gen, TrialFeature.image_gen]) userBasic.id
    ∧ (trialGet (get_or_create_trial dbEmpty userBasic).1 TrialFeature.image_gen
          ≥ TRIAL_USES_PER_PERIOD →
        consume_trial dbEmpty userBasic TrialFeature.image_gen
          = (false, (get_or_create_trial dbEmpty userBasic).2))
    ∧ (trialGet (get_or_create_trial dbEmpty userBasic).1 TrialFeature.image_gen
          < TRIAL_USES_PER_PERIOD →
        (consume_trial dbEmpty userBasic TrialFeature.image_gen).1 = true
        ∧ tlookup (consume_trial dbEmpty userBasic TrialFeature.image_gen).2.trials userBasic.id
            = some (trialSet (get_or_create_trial dbEmpty userBasic).1 TrialFeature.image_gen
                (trialGet (get_or_create_trial dbEmpty userBasic).1 TrialFeature.image_gen + 1))) :=
  consume_trial_cap_never_exceeded dbEmpty userBasic TrialFeature.image_gen
    [TrialFeature.image_gen, TrialFeature.image_gen,
     TrialFeature.image_gen, TrialFeature.image_gen]
    (fun _ h => nomatch h)

/-- Claim C4: with `last_reset_at = t0`, `maybe_reset_trial` strictly before
`t0 + TRIAL_PERIOD` returns `false` and changes nothing; at or after it
returns `true`, sets `last_reset_at = now` and zeroes every counter in the
same update. -/
theorem maybe_reset_trial_boundary (db : DB) (u : User) (t : TrialUsage)
    (t0 now : Int) (ht : tlookup db.trials u.id = some t)
    (h0 : t.last_reset_at = some t0) :
    (now < t0 + TRIAL_PERIOD_DAYS * secondsPerDay →
        maybe_reset_trial db u now = (false, db))
    ∧ (t0 + TRIAL_PERIOD_DAYS * secondsPerDay ≤ now →
        (maybe_reset_trial db u now).1 = true
        ∧ tlookup (maybe_reset_trial db u now).2.trials u.id
            = some ⟨some now, 0, 0, 0⟩) := by
  have hfound := trial_found db u t ht
  constructor
  · intro h
    have hlt : ¬(now - (t.last_reset_at.getD now) ≥ TRIAL_PERIOD_DAYS * secondsPerDay) := by
      rw [h0]
      simp only [Option.getD_some, TRIAL_PERIOD_DAYS, secondsPerDay] at h ⊢
      omega
    simp only [maybe_reset_trial, hfound]
    rw [if_neg hlt]
  · intro h
    have hge : now - (t.last_reset_at.getD now) ≥ TRIAL_PERIOD_DAYS * secondsPerDay := by
      rw [h0]
      simp only [Option.getD_some, TRIAL_PERIOD_DAYS, secondsPerDay] at h ⊢
      omega
    simp only [maybe_reset_trial, hfound]
    rw [if_pos hge]
    exact ⟨rfl, tlookup_tset_self _ _ _⟩

/-- Witness for C4 at a concrete input: `last_reset_at = 0` and
`now = 604800` (exactly seven days later). -/
theorem maybe_reset_trial_boundary_witness :
    (604800 < 0 + TRIAL_PERIOD_DAYS * secondsPerDay →
        maybe_reset_trial dbTrial userTrial 604800 = (false, dbTrial))
    ∧ (0 + TRIAL_PERIOD_DAYS * secondsPerDay ≤ 604800 →
        (maybe_reset_trial dbTrial userTrial 604800).1 = true
        ∧ tlookup (maybe_reset_trial dbTrial userTrial 604800).2.trials userTrial.id
            = some ⟨some 604800, 0, 0, 0⟩) :=
  maybe_reset_trial_boundary dbTrial userTrial trialT0 0 604800 rfl rfl

/-- Claim C6: admins and users with `premium_until` strictly in the future get
`allowed = true` from `can_use_feature` for every feature of either class,
whatever the stored counters are. -/
theorem can_use_feature_bypass (db : DB) (u : User) (fc : FeatureClass)
    (today now : Int) (h : u.is_admin = true ∨ u.is_premium now = true) :
    (can_use_feature db u fc today now).1.1 = true := by
  rcases h with h | h
  · simp [can_use_feature, h]
  · by_cases ha : u.is_admin
    · simp [can_use_feature, ha]
    · simp [can_use_feature, ha, h]

/-- Witness for C6 at a concrete input: an admin user and a quota-gated feature. -/
theorem can_use_feature_bypass_witness :
    (can_use_feature dbEmpty userAdmin (FeatureClass.freeFeature QuotaType.pptx) 0 0).1.1
      = true :=
  can_use_feature_bypass dbEmpty userAdmin (FeatureClass.freeFeature QuotaType.pptx) 0 0
    (Or.inl rfl)

/-- Claim C10: a successful `consume_trial` increments only the consumed
feature's counter: the other counters and `last_reset_at` are unchanged, the
quota table is untouched, and other users' trial rows are untouched. -/
theorem consume_trial_frame (db : DB) (u : User) (t : TrialUsage) (f : TrialFeature)
    (ht : tlookup db.trials u.id = some t)
    (hlt : trialGet t f < TRIAL_USES_PER_PERIOD) :
    (consume_trial db u f).1 = true
    ∧ (consume_trial db u f).2.quotas = db.quotas
    ∧ tlookup (consume_trial db u f).2.trials u.id
        = some (trialSet t f (trialGet t f + 1))
    ∧ trialGet (trialSet t f (trialGet t f + 1)) f = trialGet t f + 1
    ∧ (∀ g, g ≠ f → trialGet (trialSet t f (trialGet t f + 1)) g = trialGet t g)
    ∧ (trialSet t f (trialGet t f + 1)).last_reset_at = t.last_reset_at
    ∧ (∀ k, k ≠ u.id →
        tlookup (consume_trial db u f).2.trials k = tlookup db.trials k) := by
  have hfound := trial_found db u t ht
  have hc : consume_trial db u f
      = (true, { db with trials := tset db.trials u.id (trialSet t f (trialGet t f + 1)) }) := by
    simp only [consume_trial, hfound]
    rw [if_neg (not_le.mpr hlt)]
  refine ⟨by rw [hc], by rw [hc], ?_, trialGet_set_self t f _, ?_, trialSet_last_reset t f _, ?_⟩
  · rw [hc]
    exact tlookup_tset_self _ _ _
  · intro g hg
    exact trialGet_set_ne t f g _ hg
  · intro k hk
    rw [hc]
    exact tlookup_tset_ne db.trials u.id k _ hk

/-- Witness for C10 at a concrete input: the stored trial row of `userTrial`
with all counters at zero and feature `pptx`. -/
theorem consume_trial_frame_witness :
    (consume_trial dbTrial userTrial TrialFeature.pptx).1 = true
    ∧ (consume_trial dbTrial userTrial TrialFeature.pptx).2.quotas = dbTrial.quotas
    ∧ tlookup (consume_trial dbTrial userTrial TrialFeature.pptx).2.trials userTrial.id
        = some (trialSet trialT0 TrialFeature.pptx (trialGet trialT0 TrialFeature.pptx + 1))
    ∧ trialGet (trialSet trialT0 TrialFeature.pptx (trialGet trialT0 TrialFeature.pptx + 1))
        TrialFeature.pptx = trialGet trialT0 TrialFeature.pptx + 1
    ∧ (∀ g, g ≠ TrialFeature.pptx →
        trialGet (trialSet trialT0 TrialFeature.pptx (trialGet trialT0 TrialFeature.pptx + 1)) g
          = trialGet trialT0 g)
    ∧ (trialSet trialT0 TrialFeature.pptx (trialGet trialT0 TrialFeature.pptx + 1)).last_reset_at
        = trialT0.last_reset_at
    ∧ (∀ k, k ≠ userTrial.id →
        tlookup (consume_trial dbTrial userTrial TrialFeature.pptx).2.trials k
          = tlookup dbTrial.trials k) :=
  consume_trial_frame dbTrial userTrial trialT0 TrialFeature.pptx rfl (by decide)

/-- Claim C2 counterexample: for a non-admin, non-premium user whose resolved
limit for `convert` is `0`, `has_quota` returns `false` with no usage recorded,
where the claim says a limit of at most `0` is unlimited and must yield `true`. -/
theorem has_quota_nonpos_limit_counterexample :
    userZeroLimit.is_admin = false
    ∧ userZeroLimit.is_premium 0 = false
    ∧ userZeroLimit.get_daily_limit QuotaType.convert = 0
    ∧ (has_quota dbEmpty userZeroLimit QuotaType.convert 0 0).1 = false :=
  ⟨rfl, rfl, rfl, rfl⟩

/-- Claim C2, amended: the source has no unlimited sentinel — for a non-admin,
non-premium user with resolved limit at most `0` and a non-negative stored
counter, `has_quota` returns `false` (always denied). -/
theorem has_quota_nonpos_limit_denies (db : DB) (u : User) (f : QuotaType)
    (today now : Int) (hadm : u.is_admin = false) (hpre : u.is_premium now = false)
    (hlim : u.get_daily_limit f ≤ 0)
    (hused : 0 ≤ quotaGet (QuotaUsage.get_or_create db u.id today).1 f) :
    (has_quota db u f today now).1 = false := by
  have hbyp : (u.is_premium now || u.is_admin) = false := by
    rw [hadm, hpre]
    rfl
  simp only [has_quota, hbyp, Bool.false_eq_true, if_false]
  simp only [decide_eq_false_iff_not, not_lt]
  omega

/-- Witness for the amended C2 at a concrete input. -/
theorem has_quota_nonpos_limit_denies_witness :
    (has_quota dbEmpty userZeroLimit QuotaType.convert 0 0).1 = false :=
  has_quota_nonpos_limit_denies dbEmpty userZeroLimit QuotaType.convert 0 0 rfl rfl
    (by decide) (by decide)

/-- Claim C3 counterexample: when the read of today's row fails, `has_quota`
returns `true` for a non-bypass user — the error is caught and access is
silently granted ("Fail open"), not propagated as the claim states. -/
theorem has_quota_error_counterexample :
    userBasic.is_admin = false
    ∧ userBasic.is_premium 0 = false
    ∧ has_quota_exc userBasic QuotaType.convert 0 (Except.error "db failure") = true :=
  ⟨rfl, rfl, rfl⟩

/-- Claim C3, amended: a persistence error during the lookup is caught inside
`has_quota`; the function logs it and returns `true` (fails open) for every
user and feature, rather than propagating the error. -/
theorem has_quota_error_fails_open (u : User) (f : QuotaType) (now : Int)
    (e : String) : has_quota_exc u f now (Except.error e) = true := by
  unfold has_quota_exc
  split
  · rfl
  · rfl

/-- Claim C5: a non-admin, non-premium user with positive limit `n` for `f`
is denied by `has_quota` on date `D` after exactly `n` increments there, but
allowed again on date `D + 1`, whose lazily created row carries counter `0`. -/
theorem daily_cap_and_rollover (db : DB) (u : User) (f : QuotaType) (n : Nat)
    (D now : Int) (hadm : u.is_admin = false) (hpre : u.is_premium now = false)
    (hL : u.get_daily_limit f = (n : Int)) (hn : 0 < n)
    (hD : qlookup db.quotas (u.id, D) = none)
    (hD1 : qlookup db.quotas (u.id, D + 1) = none) :
    (has_quota (incIter db u f D n) u f D now).1 = false
    ∧ (has_quota (incIter db u f D n) u f (D + 1) now).1 = true
    ∧ quotaGet (QuotaUsage.get_or_create (incIter db u f D n) u.id (D + 1)).1 f = 0 := by
  have hbyp : (u.is_premium now || u.is_admin) = false := by
    rw [hadm, hpre]
    rfl
  have h0 : quotaGet (QuotaUsage.get_or_create db u.id D).1 f = 0 := by
    simp only [QuotaUsage.get_or_create, hD]
    exact quotaGet_zero f
  have hgetD : quotaGet (QuotaUsage.get_or_create (incIter db u f D n) u.id D).1 f
      = (n : Int) := by
    rw [incIter_get, h0, zero_add]
  have hkne : ((u.id, D + 1) : Nat × Int) ≠ (u.id, D) := by
    intro e
    have he : (D + 1 : Int) = D := congrArg Prod.snd e
    omega
  have hD1i : qlookup (incIter db u f D n).quotas (u.id, D + 1) = none := by
    rw [incIter_preserves_ne db u f D n _ hkne]
    exact hD1
  have h0i : quotaGet (QuotaUsage.get_or_create (incIter db u f D n) u.id (D + 1)).1 f
      = 0 := by
    simp only [QuotaUsage.get_or_create, hD1i]
    exact quotaGet_zero f
  refine ⟨?_, ?_, h0i⟩
  · simp only [has_quota, hbyp, Bool.false_eq_true, if_false, hgetD, hL]
    simp
  · simp only [has_quota, hbyp, Bool.false_eq_true, if_false, h0i, hL]
    simp only [decide_eq_true_eq]
    exact_mod_cast hn

/-- Witness for C5 at a concrete input: `userBasic` with free-plan `pptx`
limit `2`, two increments on date `0`, checks on dates `0` and `1`. -/
theorem daily_cap_and_rollover_witness :
    (has_quota (incIter dbEmpty userBasic QuotaType.pptx 0 2) userBasic
        QuotaType.pptx 0 0).1 = false
    ∧ (has_quota (incIter dbEmpty userBasic QuotaType.pptx 0 2) userBasic
        QuotaType.pptx (0 + 1) 0).1 = true
    ∧ quotaGet (QuotaUsage.get_or_create (incIter dbEmpty userBasic QuotaType.pptx 0 2)
        userBasic.id (0 + 1)).1 QuotaType.pptx = 0 :=
  daily_cap_and_rollover dbEmpty userBasic QuotaType.pptx 2 0 0 rfl rfl (by decide)
    (by decide) rfl rfl

/-- Claim C7 counterexample: a personal override of `-1` over a plan default of
`5` makes `has_quota` deny (`false`) with zero usage, where the claim says the
override's sentinel must make the feature unlimited (`true`). -/
theorem override_sentinel_counterexample :
    userNegOverride.get_daily_limit QuotaType.convert = -1
    ∧ planLimit userNegOverride.plan QuotaType.convert = 5
    ∧ userNegOverride.is_admin = false
    ∧ userNegOverride.is_premium 0 = false
    ∧ (has_quota dbEmpty userNegOverride QuotaType.convert 0 0).1 = false :=
  ⟨rfl, rfl, rfl, rfl, rfl⟩

/-- Claim C7, amended: a non-null override wins over the plan default in both
`has_quota` and `get_quota_status`, but an override of at most `0` makes
`has_quota` always deny (there is no unlimited sentinel in the source). -/
theorem override_precedence (db : DB) (u : User) (f : QuotaType) (v : Int)
    (today now : Int) (hov : userOverride u f = some v)
    (hadm : u.is_admin = false) (hpre : u.is_premium now = false) :
    u.get_daily_limit f = v
    ∧ (has_quota db u f today now).1
        = decide (quotaGet (QuotaUsage.get_or_create db u.id today).1 f < v)
    ∧ (statusEntry (get_quota_status db u today).1 f).2 = v
    ∧ (v ≤ 0 → 0 ≤ quotaGet (QuotaUsage.get_or_create db u.id today).1 f →
        (has_quota db u f today now).1 = false) := by
  have hlim : u.get_daily_limit f = v := by
    simp [User.get_daily_limit, hov]
  have hbyp : (u.is_premium now || u.is_admin) = false := by
    rw [hadm, hpre]
    rfl
  refine ⟨hlim, ?_, ?_, ?_⟩
  · simp only [has_quota, hbyp, Bool.false_eq_true, if_false, hlim]
  · cases f <;>
      simp_all [get_quota_status, statusEntry, User.get_daily_limit, userOverride]
  · intro hv hused
    simp only [has_quota, hbyp, Bool.false_eq_true, if_false, hlim]
    simp only [decide_eq_false_iff_not, not_lt]
    omega

/-- Witness for the amended C7 at a concrete input: override `-1` on `convert`. -/
theorem override_precedence_witness :
    userNegOverride.get_daily_limit QuotaType.convert = -1
    ∧ (has_quota dbEmpty userNegOverride QuotaType.convert 0 0).1
        = decide (quotaGet (QuotaUsage.get_or_create dbEmpty userNegOverride.id 0).1
            QuotaType.convert < -1)
    ∧ (statusEntry (get_quota_status dbEmpty userNegOverride 0).1 QuotaType.convert).2 = -1
    ∧ ((-1 : Int) ≤ 0 →
        0 ≤ quotaGet (QuotaUsage.get_or_create dbEmpty userNegOverride.id 0).1
            QuotaType.convert →
        (has_quota dbEmpty userNegOverride QuotaType.convert 0 0).1 = false) :=
  override_precedence dbEmpty userNegOverride QuotaType.convert (-1) 0 0 rfl rfl rfl

/-- Claim C8 counterexample: one hour after a reset (6 days 23 hours left),
`get_trial_status` reports `days_until_reset = 6`, while the claimed ceiling
formula gives `7`. -/
theorem days_until_reset_counterexample :
    (get_trial_status dbTrial userTrial 3600).1.days_until_reset = 6
    ∧ max 0 (cdiv (TRIAL_PERIOD_DAYS * secondsPerDay - (3600 - 0)) secondsPerDay) = 7 :=
  ⟨rfl, rfl⟩

/-- Claim C8, amended: `days_until_reset` is the floor (Python
`timedelta.days`), not the ceiling, of the remaining window in days, clamped
below at `0`; with 6 days 23 hours remaining it reports `6`. -/
theorem days_until_reset_floor (db : DB) (u : User) (t : TrialUsage)
    (t0 now : Int) (ht : tlookup db.trials u.id = some t)
    (h0 : t.last_reset_at = some t0) :
    (get_trial_status db u now).1.days_until_reset
      = max 0 (Int.fdiv (TRIAL_PERIOD_DAYS * secondsPerDay - (now - t0)) secondsPerDay) := by
  have hfound := trial_found db u t ht
  simp only [get_trial_status, hfound, h0, Option.getD_some]

/-- Witness for the amended C8 at a concrete input. -/
theorem days_until_reset_floor_witness :
    (get_trial_status dbTrial userTrial 3600).1.days_until_reset
      = max 0 (Int.fdiv (TRIAL_PERIOD_DAYS * secondsPerDay - (3600 - 0)) secondsPerDay) :=
  days_until_reset_floor dbTrial userTrial trialT0 0 3600 rfl rfl

/-- Claim C9: the two status reads are idempotent — a second immediate call
returns the same result and the same store, existing rows are never changed
(the only side effect is lazily creating the missing row with zero counters),
and neither read touches the other ledger's table. -/
theorem status_reads_idempotent (db : DB) (u : User) (today now : Int) :
    get_quota_status (get_quota_status db u today).2 u today
      = ((get_quota_status db u today).1, (get_quota_status db u today).2)
    ∧ (∀ k q, qlookup db.quotas k = some q →
        qlookup (get_quota_status db u today).2.quotas k = some q)
    ∧ (get_quota_status db u today).2.trials = db.trials
    ∧ get_trial_status (get_trial_status db u now).2 u now
      = ((get_trial_status db u now).1, (get_trial_status db u now).2)
    ∧ (∀ k t, tlookup db.trials k = some t →
        tlookup (get_trial_status db u now).2.trials k = some t)
    ∧ (get_trial_status db u now).2.quotas = db.quotas
    ∧ (qlookup db.quotas (u.id, today) = none →
        qlookup (get_quota_status db u today).2.quotas (u.id, today)
          = some ⟨0, 0, 0, 0⟩)
    ∧ (tlookup db.trials u.id = none →
        tlookup (get_trial_status db u now).2.trials u.id
          = some ⟨none, 0, 0, 0⟩) := by
  refine ⟨?_, ?_, ?_, ?_, ?_, ?_, ?_, ?_⟩
  · simp only [get_quota_status, get_or_create_idem]
  · intro k q h
    simp only [get_quota_status]
    exact get_or_create_preserves db u.id today k q h
  · simp only [get_quota_status]
    exact get_or_create_trials_eq db u.id today
  · simp only [get_trial_status, trial_idem]
  · intro k t h
    simp only [get_trial_status]
    exact trial_preserves db u k t h
  · simp only [get_trial_status]
    exact trial_quotas_eq db u
  · intro h
    simp only [get_quota_status, QuotaUsage.get_or_create, h]
    simp [qlookup]
  · intro h
    simp only [get_trial_status, get_or_create_trial, h]
    simp [tlookup]

end QuickBot
